import Mathlib

set_option autoImplicit false
set_option linter.dupNamespace false

/-!
Shallow embedding of the porygo orchestration core: the TTL cache store
(internal/storage), the retry/backoff controller and cache orchestration
(internal/scraper), the worker pool (internal/workerpool) and configuration
validation (config).  Durations and timestamps are modelled as `Int`
nanoseconds (Go `time.Duration` / `time.Time`), byte strings as `List Nat`,
Go errors as `Option String` or explicit error sums.
-/

namespace Porygo

/-- Go byte strings, one `Nat` per byte. -/
abbrev Bytes := List Nat

/-- One nanosecond-denominated second (`time.Second`). -/
def second : Int := 1000000000

/-- One hour (`time.Hour`). -/
def hour : Int := 3600 * second

namespace Config

/-- BackoffConfig (config.go:28-31). -/
structure BackoffConfig where
  baseDelay : Int
  jitter : Bool
deriving Repr, DecidableEq

/-- Database (config.go:23-25). -/
structure DatabaseConfig where
  expiration : Int
deriving Repr, DecidableEq

/-- Config (config.go:34-43). -/
structure Config where
  input : String
  concurrency : Int
  timeout : Int
  output : String
  retry : Int
  backoff : BackoffConfig
  database : DatabaseConfig
  force : Bool
deriving Repr, DecidableEq

/-- Defaults (config.go:63-78). -/
def Defaults : Config where
  input := ""
  concurrency := 5
  timeout := 10 * second
  output := "JSON"
  retry := 3
  backoff := { baseDelay := second, jitter := true }
  database := { expiration := 24 * hour }
  force := false

/-- Validate (config.go:143-171): collects the validation error messages; the
Go method returns a non-nil error exactly when the collected list is
non-empty. -/
def Validate (cfg : Config) : List String :=
  (if cfg.concurrency ≤ 0 then ["concurrency must be greater than 0"] else []) ++
  (if cfg.timeout ≤ 0 then ["timeout must be greater than 0"] else []) ++
  (if cfg.output ≠ "JSON" ∧ cfg.output ≠ "CSV"
    then ["output must be either JSON or CSV"] else []) ++
  (if cfg.retry < 0 then ["retry count cannot be negative"] else []) ++
  (if cfg.backoff.baseDelay ≤ 0 then ["backoff base_delay must be greater than 0"] else [])

end Config

namespace Storage

/-- CacheEntry (internal/storage types): payload bytes plus expiration
timestamp. -/
structure CacheEntry where
  value : Bytes
  expirationTime : Int
deriving Repr, DecidableEq

/-- Errors surfaced by the bolt cache operations (bolt.go). -/
inductive StorageErr where
  | emptyKey
  | notFound
  | decodeFailed
deriving Repr, DecidableEq

/-- Base-256 little-endian digits of a natural number (empty for 0). -/
def natDigits (n : Nat) : List Nat :=
  if h : n = 0 then [] else n % 256 :: natDigits (n / 256)
termination_by n
decreasing_by exact Nat.div_lt_self (Nat.pos_of_ne_zero h) (by norm_num)

/-- Value of a base-256 little-endian digit string. -/
def digitsVal : List Nat → Nat
  | [] => 0
  | d :: ds => d + 256 * digitsVal ds

/-- Modelled from the spec: encodeEntry (bolt.go:210-219) serializes a
CacheEntry with the external `encoding/gob` library, which is outside this
repository; following the spec's description of the entry as a value plus an
expiration timestamp, it is modelled as an explicit self-delimiting binary
encoding: a sign byte for the timestamp, the digit count of its magnitude,
the base-256 digits, then the payload bytes verbatim. -/
def encodeEntry (e : CacheEntry) : Bytes :=
  let ds := natDigits e.expirationTime.natAbs
  (if e.expirationTime < 0 then 1 else 0) :: ds.length :: (ds ++ e.value)

/-- Modelled from the spec: decodeEntry (bolt.go:222-231), the inverse of
`encodeEntry`; a malformed byte string decodes to `none`. -/
def decodeEntry (data : Bytes) : Option CacheEntry :=
  match data with
  | sign :: len :: rest =>
    if len ≤ rest.length then
      let m : Int := Int.ofNat (digitsVal (rest.take len))
      some { value := rest.drop len
             expirationTime := if sign = 1 then -m else m }
    else none
  | _ => none

/-- The bbolt cache bucket (the bbolt library is external to the repository),
modelled as an association list from keys to stored byte strings;
newBoltCacheAt (bolt.go:65-90) guarantees the bucket exists, so bucket-lookup
failure is not modelled. -/
structure BoltDB where
  bucket : List (String × Bytes)
deriving Repr, DecidableEq

/-- bbolt `Bucket.Get`. -/
def bucketFind (key : String) : List (String × Bytes) → Option Bytes
  | [] => none
  | (k, w) :: rest => if k = key then some w else bucketFind key rest

/-- bbolt `Bucket.Put`: upsert, replacing any prior value for the key. -/
def bucketPut (key : String) (v : Bytes) : List (String × Bytes) → List (String × Bytes)
  | [] => [(key, v)]
  | (k, w) :: rest => if k = key then (key, v) :: rest else (k, w) :: bucketPut key v rest

/-- bbolt `Bucket.Delete`: removing an absent key succeeds. -/
def bucketDel (key : String) : List (String × Bytes) → List (String × Bytes)
  | [] => []
  | (k, w) :: rest => if k = key then bucketDel key rest else (k, w) :: bucketDel key rest

/-- Get (bolt.go:102-132): rejects the empty key, then reads the bucket;
a missing key is `notFound`, a malformed record is a decode error distinct
from `notFound`. -/
def boltGet (db : BoltDB) (key : String) : Except StorageErr CacheEntry :=
  if key.length = 0 then .error .emptyKey
  else
    match bucketFind key db.bucket with
    | none => .error .notFound
    | some v =>
      match decodeEntry v with
      | none => .error .decodeFailed
      | some entry => .ok entry

/-- Set (bolt.go:135-157): rejects the empty key, otherwise upserts the
encoded entry.  The Go error is returned alongside the (possibly updated)
store. -/
def boltSet (db : BoltDB) (key : String) (entry : CacheEntry) :
    Except StorageErr Unit × BoltDB :=
  if key.length = 0 then (.error .emptyKey, db)
  else (.ok (), ⟨bucketPut key (encodeEntry entry) db.bucket⟩)

/-- Delete (bolt.go:160-177): rejects the empty key; deleting an absent key is
not an error. -/
def boltDelete (db : BoltDB) (key : String) : Except StorageErr Unit × BoltDB :=
  if key.length = 0 then (.error .emptyKey, db)
  else (.ok (), ⟨bucketDel key db.bucket⟩)

end Storage

namespace Workerpool

/-- Go `any` values that flow through a Result's Value field in this program:
nil, byte slices, strings, cached entries, or a ScrapedData struct (opaque
here: it falls into the type switch's default branch). -/
inductive GoValue where
  | vNil
  | vBytes (data : Bytes)
  | vStr (s : String)
  | vCached (entry : Storage.CacheEntry)
  | vScraped
deriving Repr, DecidableEq

/-- Result (workerpool types): an untyped Value plus an optional error,
carried as its message. -/
structure Result where
  value : GoValue
  err : Option String
deriving Repr, DecidableEq

/-- Job (workerpool types): a zero-argument unit of work.  A Go function may
panic; a panicking execution is modelled as `none`. -/
abbrev Job := Unit → Option Result

/-- WorkerPool state: the two buffered channels (`jobs` with its capacity,
`results` modelled as the unbounded sequence of pushed Results), their
closed flags, and whether the cancellation context is done. -/
structure PoolState where
  jobs : List Job
  jobsCap : Nat
  jobsClosed : Bool
  results : List Result
  resultsClosed : Bool
  ctxDone : Bool

/-- New (workerpool.go:17-22) followed by the submission of a batch of jobs:
both channels allocated with capacity `bufferSize`, the given jobs queued,
nothing executed yet, context live. -/
def mkPool (bufferSize : Nat) (jobs : List Job) : PoolState where
  jobs := jobs
  jobsCap := bufferSize
  jobsClosed := false
  results := []
  resultsClosed := false
  ctxDone := false

inductive SubmitOutcome where
  | enqueued (s : PoolState)
  | cancelled
  | blocked
  | panicked

/-- Submit (workerpool.go:26-33): a Go select between the done channel and the
send into `jobs`.  `pick` resolves the nondeterministic choice Go makes when
both cases are ready (true picks the ctx.Done case).  The send case is ready
when the buffer has space or the channel is closed (performing a send on a
closed channel panics); with neither case ready the caller blocks. -/
def submit (s : PoolState) (job : Job) (pick : Bool) : SubmitOutcome :=
  let sendReady := s.jobsClosed || decide (s.jobs.length < s.jobsCap)
  if s.ctxDone && (pick || !sendReady) then .cancelled
  else if sendReady then
    if s.jobsClosed then .panicked
    else .enqueued { s with jobs := s.jobs ++ [job] }
  else .blocked

inductive SelectOutcome where
  | exited
  | dequeued (job : Job) (s : PoolState)
  | blocked

/-- The worker's select (workerpool.go:44-50): either observes cancellation
and returns, or receives from `jobs`.  The receive case is ready when a job is
queued or the channel is closed (a closed, drained channel delivers ok = false
and the worker returns).  `pick` resolves the choice when both cases are
ready (true picks the ctx.Done case). -/
def workerSelect (s : PoolState) (pick : Bool) : SelectOutcome :=
  let recvReady := !s.jobs.isEmpty || s.jobsClosed
  if s.ctxDone && (pick || !recvReady) then .exited
  else if recvReady then
    match s.jobs with
    | [] => .exited
    | j :: rest => .dequeued j { s with jobs := rest }
  else .blocked

/-- Running a dequeued job and pushing its Result (workerpool.go:51).  There
is no ctx check and no recover here: a dequeued item always runs to completion
and its Result is pushed (the bounded results channel is modelled as an
unbounded append), while a panicking job propagates out of the worker
(`none`). -/
def runDequeued (s : PoolState) (job : Job) : Option PoolState :=
  (job ()).map (fun r => { s with results := s.results ++ [r] })

/-- Close (workerpool.go:60-64): closes `jobs`, waits for all workers to
finish, then closes `results`.  With the context live, the workers between
them drain every queued job, pushing one Result each (modelled as a
sequential drain); a panicking job crashes the run (`none`). -/
def closePool (s : PoolState) : Option PoolState :=
  (s.jobs.mapM (fun j : Job => j ())).map (fun rs =>
    { s with jobs := [], jobsClosed := true,
             results := s.results ++ rs, resultsClosed := true })

end Workerpool

namespace Scraper

/-- Go float64-to-time.Duration conversion: truncation toward zero.  float64
arithmetic on the durations involved is modelled with exact rationals. -/
def durOfFloat (q : ℚ) : Int := if 0 ≤ q then ⌊q⌋ else ⌈q⌉

/-- calculateBackoffDelay (scraper.go:275-297): exponential backoff with a
fixed multiplier of 2, capped at max(30s, base delay * 16), optionally
jittered.  `attempt` is the value the caller passes (the 1-based loop attempt
minus one); `r` models the rand.Float64() sample in [0, 1). -/
def calculateBackoffDelay (cfg : Config.Config) (attempt : Nat) (r : ℚ) : Int :=
  let delay : ℚ := (cfg.backoff.baseDelay : ℚ) * 2 ^ attempt
  let maxDelay : Int := max (30 * second) (cfg.backoff.baseDelay * 16)
  let delay : ℚ := if maxDelay < durOfFloat delay then (maxDelay : ℚ) else delay
  let delay : ℚ := if cfg.backoff.jitter then r * delay else delay
  durOfFloat delay

/-- Retry Attempt State observed over one whole loop invocation
(performScrapeWithRetries, scraper.go:97-127): the final Result (`none` when
the loop faults formatting a nil last error), the number of scrape attempts
made, and the pre-sleep backoff delays in order. -/
structure RetryTrace where
  result : Option Workerpool.Result
  attemptsMade : Nat
  delays : List Int
deriving Repr

/-- The loop of performScrapeWithRetries (scraper.go:102-121), recursing on
the attempts remaining.  `scrapeFn a` is the outcome of s.scrape(url) on the
a-th attempt (the network is determinized by attempt number); `rand a` is the
jitter sample for the sleep after attempt a.  A successful attempt returns its
Result at once; a failing attempt that is not the last sleeps for
calculateBackoffDelay(attempt-1) first.  When the budget is exhausted the
failure Result is built from lastErr (scraper.go:123-126); Go calls
lastErr.Error() there, which faults when lastErr is nil, modelled as a `none`
result. -/
def retryGo (cfg : Config.Config) (scrapeFn : Nat → Workerpool.Result)
    (rand : Nat → ℚ) (attempt : Nat) (remaining : Nat)
    (lastErr : Option String) : RetryTrace :=
  match remaining with
  | 0 =>
    { result := lastErr.map (fun e =>
        { value := .vNil, err := some ("all attempts failed: " ++ e) })
      attemptsMade := 0
      delays := [] }
  | Nat.succ rem =>
    let r := scrapeFn attempt
    match r.err with
    | none => { result := some r, attemptsMade := 1, delays := [] }
    | some e =>
      if 0 < rem then
        let d := calculateBackoffDelay cfg (attempt - 1) (rand attempt)
        let t := retryGo cfg scrapeFn rand (attempt + 1) rem (some e)
        { result := t.result, attemptsMade := t.attemptsMade + 1, delays := d :: t.delays }
      else
        let t := retryGo cfg scrapeFn rand (attempt + 1) rem (some e)
        { result := t.result, attemptsMade := t.attemptsMade + 1, delays := t.delays }

/-- performScrapeWithRetries (scraper.go:97-127): attempt numbers run
1..cfg.retry inclusive (a non-positive retry count enters the loop zero
times). -/
def performScrapeWithRetries (cfg : Config.Config)
    (scrapeFn : Nat → Workerpool.Result) (rand : Nat → ℚ) : RetryTrace :=
  retryGo cfg scrapeFn rand 1 cfg.retry.toNat none

/-- checkCache (scraper.go:300-323): reads the cache; a storage error other
than NotFound is logged and treated as a miss (fail open), NotFound is a miss,
an entry whose expiration is strictly in the past (time.Now().After it) is
deleted (cleanupExpiredCache, scraper.go:343-348) and treated as a miss,
anything else is returned as a cached Result.  `now` models time.Now();
returns the optional cached Result and the updated store. -/
def checkCache (cache : Storage.BoltDB) (url : String) (now : Int) :
    Option Workerpool.Result × Storage.BoltDB :=
  match Storage.boltGet cache url with
  | .error _ => (none, cache)
  | .ok cached =>
    if cached.expirationTime < now then
      (none, (Storage.boltDelete cache url).2)
    else
      (some { value := .vCached cached, err := none }, cache)

/-- The type switch in ScrapeWithRetry (scraper.go:79-87): only byte-slice and
string results produce cacheable bytes; any other dynamic type (for example a
ScrapedData struct) leaves the data empty. -/
def extractData : Workerpool.GoValue → Bytes
  | .vBytes d => d
  | .vStr s => s.toUTF8.toList.map (fun b => b.toNat)
  | _ => []

/-- storeCacheResult (scraper.go:326-340): writes the entry with expiration
now + cfg.database.expiration; a Set failure is only logged, so the error
component of the write is discarded. -/
def storeCacheResult (cfg : Config.Config) (cache : Storage.BoltDB)
    (url : String) (data : Bytes) (now : Int) : Storage.BoltDB :=
  (Storage.boltSet cache url
    { value := data, expirationTime := now + cfg.database.expiration }).2

/-- Observable outcome of one ScrapeWithRetry call: the Result (`none` when
the call faults), the updated cache store, and whether the retry loop (and so
the Fetcher) was invoked. -/
structure ScrapeOutcome where
  result : Option Workerpool.Result
  cache : Storage.BoltDB
  fetcherInvoked : Bool

/-- ScrapeWithRetry (scraper.go:65-94): the cache is consulted unless Force is
set; on a miss the retry loop runs; on a successful Result whose extracted
payload is non-empty the payload is stored in the cache; the Result is
returned regardless of the cache write's outcome.  Time is modelled as the
single instant `now`. -/
def ScrapeWithRetry (cfg : Config.Config) (scrapeFn : Nat → Workerpool.Result)
    (rand : Nat → ℚ) (cache : Storage.BoltDB) (url : String) (now : Int) :
    ScrapeOutcome :=
  let fetchPath : Storage.BoltDB → ScrapeOutcome := fun cache1 =>
    match (performScrapeWithRetries cfg scrapeFn rand).result with
    | none => { result := none, cache := cache1, fetcherInvoked := true }
    | some r =>
      match r.err with
      | some _ => { result := some r, cache := cache1, fetcherInvoked := true }
      | none =>
        let data := extractData r.value
        if 0 < data.length then
          { result := some r, cache := storeCacheResult cfg cache1 url data now,
            fetcherInvoked := true }
        else
          { result := some r, cache := cache1, fetcherInvoked := true }
  if cfg.force then fetchPath cache
  else
    match checkCache cache url now with
    | (some cachedResult, cache1) =>
      { result := some cachedResult, cache := cache1, fetcherInvoked := false }
    | (none, cache1) => fetchPath cache1

end Scraper

/-! Concrete fixtures used to instantiate the theorems. -/

/-- A work item that completes normally with a nil-error Result. -/
def sampleJob : Workerpool.Job := fun _ => some { value := .vNil, err := none }

/-- A scrape outcome that fails on every attempt. -/
def sampleScrapeFail : Nat → Workerpool.Result :=
  fun _ => { value := .vNil, err := some "boom" }

/-- A scrape outcome that succeeds on every attempt with a byte payload. -/
def sampleScrapeOk : Nat → Workerpool.Result :=
  fun _ => { value := .vBytes [7, 7], err := none }

/-- A degenerate jitter sample stream. -/
def randZero : Nat → ℚ := fun _ => 0

/-- The default configuration with a 1s base delay and jitter disabled. -/
def cfgBase1 : Config.Config :=
  { Config.Defaults with backoff := { baseDelay := second, jitter := false } }

/-- A store holding one entry under key "u" expiring at instant 5. -/
def c2db : Storage.BoltDB := (Storage.boltSet ⟨[]⟩ "u" ⟨[7], 5⟩).2

/-- The default configuration with the force-refresh flag set. -/
def cfgForce : Config.Config := { Config.Defaults with force := true }

/-! Helper lemmas. -/

namespace Storage

theorem digitsVal_natDigits (n : Nat) : digitsVal (natDigits n) = n := by
  induction n using Nat.strong_induction_on with
  | _ n ih =>
    rw [natDigits]
    by_cases h : n = 0
    · simp [h, digitsVal]
    · simp only [h, dite_false, digitsVal]
      rw [ih (n / 256) (Nat.div_lt_self (Nat.pos_of_ne_zero h) (by norm_num))]
      exact Nat.mod_add_div n 256

theorem decodeEntry_encodeEntry (e : CacheEntry) : decodeEntry (encodeEntry e) = some e := by
  obtain ⟨v, t⟩ := e
  by_cases h : t < 0
  · simp [encodeEntry, decodeEntry, h, List.take_left, List.drop_left,
      digitsVal_natDigits, abs_of_neg h]
  · simp [encodeEntry, decodeEntry, h, List.take_left, List.drop_left,
      digitsVal_natDigits, abs_of_nonneg (not_lt.1 h)]

theorem bucketFind_bucketPut (key : String) (v : Bytes) (l : List (String × Bytes)) :
    bucketFind key (bucketPut key v l) = some v := by
  induction l with
  | nil => simp [bucketPut, bucketFind]
  | cons p rest ih =>
    obtain ⟨k, w⟩ := p
    by_cases h : k = key <;> simp [bucketPut, bucketFind, h, ih]

end Storage

namespace Workerpool

theorem mapM_run_of_total (js : List Job) (h : ∀ j ∈ js, j () ≠ none) :
    ∃ rs : List Result, js.mapM (fun j => j ()) = some rs ∧ rs.length = js.length := by
  induction js with
  | nil => exact ⟨[], rfl, rfl⟩
  | cons j rest ih =>
    obtain ⟨r, hr⟩ := Option.ne_none_iff_exists.mp (h j (List.mem_cons_self j rest))
    obtain ⟨rs, hrs, hlen⟩ := ih (fun j hj => h j (List.mem_cons_of_mem _ hj))
    refine ⟨r :: rs, ?_, by simp [hlen]⟩
    rw [List.mapM_cons, ← hr, hrs]
    rfl

end Workerpool

namespace Scraper

theorem durOfFloat_intCast (n : Int) : durOfFloat (n : ℚ) = n := by
  unfold durOfFloat
  split <;> simp

theorem durOfFloat_of_nonneg (q : ℚ) (h : 0 ≤ q) : durOfFloat q = ⌊q⌋ := by
  simp [durOfFloat, h]

theorem calculateBackoffDelay_nojitter (cfg : Config.Config) (k : Nat) (r : ℚ)
    (hj : cfg.backoff.jitter = false) (hb : 0 < cfg.backoff.baseDelay) :
    calculateBackoffDelay cfg k r =
      min (cfg.backoff.baseDelay * 2 ^ k)
        (max (30 * second) (cfg.backoff.baseDelay * 16)) := by
  have hcast : (cfg.backoff.baseDelay : ℚ) * 2 ^ k
      = ((cfg.backoff.baseDelay * 2 ^ k : Int) : ℚ) := by push_cast; ring
  simp only [calculateBackoffDelay, hj, Bool.false_eq_true, if_false]
  rw [hcast, durOfFloat_intCast]
  by_cases hcap : max (30 * second) (cfg.backoff.baseDelay * 16)
      < cfg.backoff.baseDelay * 2 ^ k
  · rw [if_pos hcap, durOfFloat_intCast]
    omega
  · rw [if_neg hcap, durOfFloat_intCast]
    omega

theorem calculateBackoffDelay_jitter_bounds (cfg : Config.Config) (k : Nat) (r : ℚ)
    (hj : cfg.backoff.jitter = true) (hb : 0 < cfg.backoff.baseDelay)
    (hr0 : 0 ≤ r) (hr1 : r < 1) :
    0 ≤ calculateBackoffDelay cfg k r ∧
    calculateBackoffDelay cfg k r ≤
      min (cfg.backoff.baseDelay * 2 ^ k)
        (max (30 * second) (cfg.backoff.baseDelay * 16)) := by
  have hsec : (0 : Int) < second := by norm_num [second]
  have hn : (0 : Int) < cfg.backoff.baseDelay * 2 ^ k := by positivity
  have hmaxD : (0 : Int) < max (30 * second) (cfg.backoff.baseDelay * 16) := by omega
  have hcast : (cfg.backoff.baseDelay : ℚ) * 2 ^ k
      = ((cfg.backoff.baseDelay * 2 ^ k : Int) : ℚ) := by push_cast; ring
  simp only [calculateBackoffDelay, hj, if_true]
  rw [hcast, durOfFloat_intCast]
  by_cases hcap : max (30 * second) (cfg.backoff.baseDelay * 16)
      < cfg.backoff.baseDelay * 2 ^ k
  · rw [if_pos hcap]
    have hnn : (0 : ℚ) ≤ ((max (30 * second) (cfg.backoff.baseDelay * 16) : Int) : ℚ) := by
      exact_mod_cast hmaxD.le
    have hprod : 0 ≤ r * ((max (30 * second) (cfg.backoff.baseDelay * 16) : Int) : ℚ) :=
      mul_nonneg hr0 hnn
    rw [durOfFloat_of_nonneg _ hprod]
    have hub := Int.floor_le_floor (mul_le_of_le_one_left hnn hr1.le)
    rw [Int.floor_intCast] at hub
    exact ⟨Int.le_floor.mpr (by exact_mod_cast hprod), by omega⟩
  · rw [if_neg hcap]
    have hnn : (0 : ℚ) ≤ ((cfg.backoff.baseDelay * 2 ^ k : Int) : ℚ) := by
      exact_mod_cast hn.le
    have hprod : 0 ≤ r * ((cfg.backoff.baseDelay * 2 ^ k : Int) : ℚ) :=
      mul_nonneg hr0 hnn
    rw [durOfFloat_of_nonneg _ hprod]
    have hub := Int.floor_le_floor (mul_le_of_le_one_left hnn hr1.le)
    rw [Int.floor_intCast] at hub
    exact ⟨Int.le_floor.mpr (by exact_mod_cast hprod), by omega⟩

theorem retryGo_all_fail (cfg : Config.Config) (scrapeFn : Nat → Workerpool.Result)
    (rand : Nat → ℚ) (hfail : ∀ a, (scrapeFn a).err ≠ none) :
    ∀ (rem attempt : Nat) (lastErr : Option String), 1 ≤ rem →
    ∃ e, (scrapeFn (attempt + rem - 1)).err = some e ∧
      retryGo cfg scrapeFn rand attempt rem lastErr =
        { result := some { value := .vNil, err := some ("all attempts failed: " ++ e) }
          attemptsMade := rem
          delays := (List.range (rem - 1)).map (fun i =>
            calculateBackoffDelay cfg (attempt + i - 1) (rand (attempt + i))) } := by
  intro rem
  induction rem with
  | zero => intro _ _ h; omega
  | succ rem ih =>
    intro attempt lastErr _
    obtain ⟨e, he⟩ := Option.ne_none_iff_exists.mp (hfail attempt)
    by_cases hrem : 0 < rem
    · obtain ⟨e2, he2, ht⟩ := ih (attempt + 1) (some e) hrem
      refine ⟨e2, ?_, ?_⟩
      · have hidx : attempt + (rem + 1) - 1 = attempt + 1 + rem - 1 := by omega
        rw [hidx]
        exact he2
      · rw [retryGo, ← he]
        simp only [hrem, if_true, ht]
        obtain ⟨k, hk⟩ : ∃ k, rem = k + 1 := ⟨rem - 1, by omega⟩
        subst hk
        simp only [RetryTrace.mk.injEq, true_and, Nat.add_sub_cancel]
        rw [List.range_succ_eq_map, List.map_cons, List.map_map]
        refine congrArg₂ List.cons ?_ ?_
        · simp
        · apply List.map_congr_left
          intro i _
          have h1 : attempt + 1 + i - 1 = attempt + (i + 1) - 1 := by omega
          have h2 : attempt + 1 + i = attempt + (i + 1) := by omega
          simp [Function.comp, h1, h2]
    · have hrem0 : rem = 0 := by omega
      subst hrem0
      refine ⟨e, by simpa using he.symm, ?_⟩
      rw [retryGo, ← he]
      simp [retryGo]

end Scraper

theorem eq_empty_of_length_eq_zero {s : String} (h : s.length = 0) : s = "" := by
  cases s with
  | mk data =>
    simp [String.length] at h
    simp [h]

/-! Claim theorems. -/

/-- C9: for every non-empty key and every Cache Entry, writing the entry with
Set and immediately reading it back with Get yields an entry with a
byte-identical payload and an equal expiration timestamp (the encode/decode
round-trip is the identity on Cache Entries). -/
theorem c9_set_get_roundtrip (db : Storage.BoltDB) (key : String)
    (entry : Storage.CacheEntry) (hkey : key ≠ "") :
    Storage.boltGet (Storage.boltSet db key entry).2 key = .ok entry := by
  have hlen : ¬ key.length = 0 := fun h => hkey (eq_empty_of_length_eq_zero h)
  simp [Storage.boltSet, Storage.boltGet, hlen, Storage.bucketFind_bucketPut,
    Storage.decodeEntry_encodeEntry]

theorem c9_set_get_roundtrip_witness :
    Storage.boltGet
      (Storage.boltSet ⟨[]⟩ "k" ⟨[1, 2, 3], 42⟩).2 "k" = .ok ⟨[1, 2, 3], 42⟩ :=
  c9_set_get_roundtrip ⟨[]⟩ "k" ⟨[1, 2, 3], 42⟩ (by decide)

/-- C10: for the empty-string key, the Cache Store operations Get, Set and
Delete each return an error without touching the underlying store. -/
theorem c10_empty_key_rejected (db : Storage.BoltDB) (entry : Storage.CacheEntry) :
    Storage.boltGet db "" = .error .emptyKey ∧
    Storage.boltSet db "" entry = (.error .emptyKey, db) ∧
    Storage.boltDelete db "" = (.error .emptyKey, db) := by
  refine ⟨?_, ?_, ?_⟩ <;> simp [Storage.boltGet, Storage.boltSet, Storage.boltDelete]

/-- C6 counterexample: a Work Item whose execution panics (modelled as `none`)
is not converted into a failure Result — the worker body (workerpool.go:51)
installs no recover, so running the item produces no successor pool state at
all: the panic propagates out of the executing worker. -/
theorem c6_counterexample :
    Workerpool.runDequeued (Workerpool.mkPool 10 []) (fun _ => none) = none ∧
    ∀ s, Workerpool.runDequeued (Workerpool.mkPool 10 []) (fun _ => none) ≠ some s := by
  refine ⟨rfl, fun s h => ?_⟩
  simp [Workerpool.runDequeued] at h

/-- C6 amended: a panic inside one Work Item's execution is not contained by
the executing worker: it propagates and no Result is produced for the item,
while a non-panicking item's Result is pushed unchanged. -/
theorem c6_panic_propagates (s : Workerpool.PoolState) (job : Workerpool.Job) :
    (job () = none → Workerpool.runDequeued s job = none) ∧
    (∀ r, job () = some r →
      Workerpool.runDequeued s job = some { s with results := s.results ++ [r] }) := by
  constructor
  · intro h
    simp [Workerpool.runDequeued, h]
  · intro r h
    simp [Workerpool.runDequeued, h]

theorem c6_panic_propagates_witness :
    Workerpool.runDequeued (Workerpool.mkPool 2 []) (fun _ => none) = none ∧
    Workerpool.runDequeued (Workerpool.mkPool 2 []) sampleJob =
      some { Workerpool.mkPool 2 [] with results := [{ value := .vNil, err := none }] } :=
  ⟨(c6_panic_propagates _ _).1 rfl,
   (c6_panic_propagates _ _).2 { value := .vNil, err := none } rfl⟩

/-- C7 counterexample: a Submit call issued with an already-cancelled context
and free queue space: Go's select picks among ready cases nondeterministically,
and when it picks the send case the item is enqueued and no cancellation error
is returned — contradicting the claim that every such Submit call returns a
cancellation error without enqueueing. -/
theorem c7_counterexample :
    Workerpool.submit { Workerpool.mkPool 10 [] with ctxDone := true }
      sampleJob false =
    .enqueued { Workerpool.mkPool 10 [sampleJob] with ctxDone := true } := rfl

/-- C7 amended: after the cancellation context is done, an already-dequeued
item still runs to completion and its Result is pushed; a Submit with the done
context returns a cancellation error without enqueueing whenever the select
picks the done case or the queue has no free space, but may enqueue the item
when the queue has space and the select picks the send case; a worker whose
select picks the done case exits without dequeuing anything further. -/
theorem c7_cancellation_semantics :
    (∀ (s : Workerpool.PoolState) (job : Workerpool.Job) (r : Workerpool.Result),
      s.ctxDone = true → job () = some r →
      Workerpool.runDequeued s job = some { s with results := s.results ++ [r] }) ∧
    (∀ (s : Workerpool.PoolState) (job : Workerpool.Job),
      s.ctxDone = true → Workerpool.submit s job true = .cancelled) ∧
    (∀ (s : Workerpool.PoolState) (job : Workerpool.Job) (pick : Bool),
      s.ctxDone = true → s.jobsClosed = false → ¬ s.jobs.length < s.jobsCap →
      Workerpool.submit s job pick = .cancelled) ∧
    (∀ s : Workerpool.PoolState, s.ctxDone = true →
      Workerpool.workerSelect s true = .exited) := by
  refine ⟨?_, ?_, ?_, ?_⟩
  · intro s job r _ h
    simp [Workerpool.runDequeued, h]
  · intro s job h
    simp [Workerpool.submit, h]
  · intro s job pick h1 h2 h3
    simp [Workerpool.submit, h1, h2, h3]
  · intro s h
    simp [Workerpool.workerSelect, h]

theorem c7_cancellation_semantics_witness :
    Workerpool.runDequeued { Workerpool.mkPool 10 [] with ctxDone := true } sampleJob =
      some { Workerpool.mkPool 10 [] with
               ctxDone := true,
               results := [{ value := .vNil, err := none }] } ∧
    Workerpool.submit { Workerpool.mkPool 10 [] with ctxDone := true }
      sampleJob true = .cancelled ∧
    Workerpool.submit { Workerpool.mkPool 0 [] with ctxDone := true }
      sampleJob false = .cancelled ∧
    Workerpool.workerSelect { Workerpool.mkPool 10 [] with ctxDone := true }
      true = .exited :=
  ⟨c7_cancellation_semantics.1 _ _ _ rfl rfl,
   c7_cancellation_semantics.2.1 _ _ rfl,
   c7_cancellation_semantics.2.2.1 _ _ false rfl rfl (by decide),
   c7_cancellation_semantics.2.2.2 _ rfl⟩

/-- C8: with the context live, closing the pool after N items have been
submitted (M live workers, 0 < M < N, every item non-panicking) closes the
input queue, executes all N items making their N Results available, and then
closes the output queue, so Results() yields exactly N Results and
terminates. -/
theorem c8_close_drains_all (js : List Workerpool.Job) (bufferSize M : Nat)
    (hM : 0 < M) (hMN : M < js.length)
    (htotal : ∀ j ∈ js, j () ≠ none) :
    ∃ s : Workerpool.PoolState,
      Workerpool.closePool (Workerpool.mkPool bufferSize js) = some s ∧
      s.results.length = js.length ∧
      s.resultsClosed = true ∧
      s.jobsClosed = true := by
  obtain ⟨rs, hrs, hlen⟩ := Workerpool.mapM_run_of_total js htotal
  refine ⟨{ Workerpool.mkPool bufferSize js with
            jobs := [], jobsClosed := true, results := rs, resultsClosed := true },
    ?_, hlen, rfl, rfl⟩
  have hjobs : (Workerpool.mkPool bufferSize js).jobs = js := rfl
  unfold Workerpool.closePool
  rw [hjobs, hrs]
  rfl

/-- C1: with max_attempts ≥ 1 and every fetch attempt failing, the retry loop
performs exactly max_attempts attempts and returns a failure Result whose
error wraps the last attempt's error behind the exhaustion marker
"all attempts failed: " — not the raw last error alone. -/
theorem c1_retry_exhaustion (cfg : Config.Config)
    (scrapeFn : Nat → Workerpool.Result) (rand : Nat → ℚ)
    (hretry : 1 ≤ cfg.retry) (hfail : ∀ a, (scrapeFn a).err ≠ none) :
    (Scraper.performScrapeWithRetries cfg scrapeFn rand).attemptsMade = cfg.retry.toNat ∧
    ∃ e, (scrapeFn cfg.retry.toNat).err = some e ∧
      (Scraper.performScrapeWithRetries cfg scrapeFn rand).result =
        some { value := .vNil, err := some ("all attempts failed: " ++ e) } := by
  have h1 : 1 ≤ cfg.retry.toNat := by omega
  obtain ⟨e, he, ht⟩ :=
    Scraper.retryGo_all_fail cfg scrapeFn rand hfail cfg.retry.toNat 1 none h1
  have hidx : 1 + cfg.retry.toNat - 1 = cfg.retry.toNat := by omega
  rw [hidx] at he
  refine ⟨?_, e, he, ?_⟩
  · rw [Scraper.performScrapeWithRetries, ht]
  · rw [Scraper.performScrapeWithRetries, ht]

theorem c1_retry_exhaustion_witness :
    (Scraper.performScrapeWithRetries Config.Defaults sampleScrapeFail randZero).attemptsMade
      = Int.toNat Config.Defaults.retry ∧
    ∃ e, (sampleScrapeFail (Int.toNat Config.Defaults.retry)).err = some e ∧
      (Scraper.performScrapeWithRetries Config.Defaults sampleScrapeFail randZero).result =
        some { value := .vNil, err := some ("all attempts failed: " ++ e) } :=
  c1_retry_exhaustion Config.Defaults sampleScrapeFail randZero (by decide)
    (fun a => by simp [sampleScrapeFail])

/-- C2 counterexample: a cached entry whose expiration equals the current
instant is not in the future, yet checkCache serves it as valid — the code
expires only strictly-past entries (time.Now().After) — it is not deleted,
and ScrapeWithRetry does not trigger a fresh fetch, contradicting the claim
that validity requires now strictly before expires_at. -/
theorem c2_counterexample :
    Scraper.checkCache c2db "u" 5 =
      (some { value := .vCached ⟨[7], 5⟩, err := none }, c2db) ∧
    (Scraper.ScrapeWithRetry Config.Defaults sampleScrapeFail randZero
      c2db "u" 5).fetcherInvoked = false := by
  have hne : ¬ ("u".length = 0) := by decide
  have hhit : Storage.boltGet c2db "u" = .ok ⟨[7], 5⟩ := by
    simp [c2db, Storage.boltSet, Storage.boltGet, hne,
      Storage.bucketFind_bucketPut, Storage.decodeEntry_encodeEntry]
  have hc : Scraper.checkCache c2db "u" 5 =
      (some { value := .vCached ⟨[7], 5⟩, err := none }, c2db) := by
    simp [Scraper.checkCache, hhit]
  refine ⟨hc, ?_⟩
  simp [Scraper.ScrapeWithRetry, hc, Config.Defaults]

/-- C2 amended: on read, a cached entry is treated as valid iff
now ≤ expires_at (the code deletes only strictly-past entries, so an entry
observed exactly at its expiration is still served); a valid entry is
returned immediately and the Fetcher is not invoked; an entry whose
expiration is strictly in the past is deleted from the Cache Store (lazy
expiration) and a fresh fetch is triggered. -/
theorem c2_cache_validity (cfg : Config.Config) (scrapeFn : Nat → Workerpool.Result)
    (rand : Nat → ℚ) (cache : Storage.BoltDB) (url : String) (now : Int)
    (entry : Storage.CacheEntry)
    (hhit : Storage.boltGet cache url = .ok entry) (hforce : cfg.force = false) :
    (now ≤ entry.expirationTime →
      Scraper.checkCache cache url now =
        (some { value := .vCached entry, err := none }, cache) ∧
      (Scraper.ScrapeWithRetry cfg scrapeFn rand cache url now).fetcherInvoked = false ∧
      (Scraper.ScrapeWithRetry cfg scrapeFn rand cache url now).result =
        some { value := .vCached entry, err := none }) ∧
    (entry.expirationTime < now →
      Scraper.checkCache cache url now = (none, (Storage.boltDelete cache url).2) ∧
      (Scraper.ScrapeWithRetry cfg scrapeFn rand cache url now).fetcherInvoked = true) := by
  constructor
  · intro hnow
    have hc : Scraper.checkCache cache url now =
        (some { value := .vCached entry, err := none }, cache) := by
      simp [Scraper.checkCache, hhit, not_lt.2 hnow]
    refine ⟨hc, ?_, ?_⟩ <;> simp [Scraper.ScrapeWithRetry, hforce, hc]
  · intro hexp
    have hc : Scraper.checkCache cache url now =
        (none, (Storage.boltDelete cache url).2) := by
      simp [Scraper.checkCache, hhit, hexp]
    refine ⟨hc, ?_⟩
    rcases hp : (Scraper.performScrapeWithRetries cfg scrapeFn rand).result with _ | r
    · simp [Scraper.ScrapeWithRetry, hforce, hc, hp]
    · rcases hr : r.err with _ | e
      · by_cases hd : 0 < (Scraper.extractData r.value).length
        · simp [Scraper.ScrapeWithRetry, hforce, hc, hp, hr, hd]
        · simp [Scraper.ScrapeWithRetry, hforce, hc, hp, hr, hd]
      · simp [Scraper.ScrapeWithRetry, hforce, hc, hp, hr]

theorem c2_cache_validity_witness :
    Scraper.checkCache c2db "u" 4 =
      (some { value := .vCached ⟨[7], 5⟩, err := none }, c2db) ∧
    (Scraper.ScrapeWithRetry Config.Defaults sampleScrapeFail randZero
      c2db "u" 6).fetcherInvoked = true := by
  have hne : ¬ ("u".length = 0) := by decide
  have hhit : Storage.boltGet c2db "u" = .ok ⟨[7], 5⟩ := by
    simp [c2db, Storage.boltSet, Storage.boltGet, hne,
      Storage.bucketFind_bucketPut, Storage.decodeEntry_encodeEntry]
  exact ⟨((c2_cache_validity Config.Defaults sampleScrapeFail randZero
      c2db "u" 4 ⟨[7], 5⟩ hhit rfl).1 (by decide)).1,
    ((c2_cache_validity Config.Defaults sampleScrapeFail randZero
      c2db "u" 6 ⟨[7], 5⟩ hhit rfl).2 (by decide)).2⟩

/-- C3: when the fetch path runs (force-refresh set, or a cache miss leaving
the store as cache1) and the retry loop succeeds with a Result whose
extracted payload is non-empty, ScrapeWithRetry writes the entry with value
the payload and expiration now + configured TTL into the Cache Store, and
returns the successful fetched Result itself; the write's error component is
discarded by storeCacheResult, so a failed cache write cannot downgrade the
returned Result (the conclusion holds whatever error the write reports). -/
theorem c3_success_is_cached (cfg : Config.Config) (scrapeFn : Nat → Workerpool.Result)
    (rand : Nat → ℚ) (cache cache1 : Storage.BoltDB) (url : String) (now : Int)
    (r : Workerpool.Result)
    (hpath : (cfg.force = true ∧ cache1 = cache) ∨
      (cfg.force = false ∧ Scraper.checkCache cache url now = (none, cache1)))
    (hres : (Scraper.performScrapeWithRetries cfg scrapeFn rand).result = some r)
    (hok : r.err = none)
    (hdata : 0 < (Scraper.extractData r.value).length) :
    (Scraper.ScrapeWithRetry cfg scrapeFn rand cache url now).result = some r ∧
    (Scraper.ScrapeWithRetry cfg scrapeFn rand cache url now).cache =
      (Storage.boltSet cache1 url
        { value := Scraper.extractData r.value,
          expirationTime := now + cfg.database.expiration }).2 := by
  rcases hpath with ⟨hf, rfl⟩ | ⟨hf, hc⟩
  · constructor <;>
      simp [Scraper.ScrapeWithRetry, hf, hres, hok, hdata, Scraper.storeCacheResult]
  · constructor <;>
      simp [Scraper.ScrapeWithRetry, hf, hc, hres, hok, hdata, Scraper.storeCacheResult]

theorem c3_success_is_cached_witness :
    (Scraper.ScrapeWithRetry cfgForce sampleScrapeOk randZero ⟨[]⟩ "k" 100).result =
      some { value := .vBytes [7, 7], err := none } ∧
    (Scraper.ScrapeWithRetry cfgForce sampleScrapeOk randZero ⟨[]⟩ "k" 100).cache =
      (Storage.boltSet ⟨[]⟩ "k"
        { value := Scraper.extractData (Workerpool.GoValue.vBytes [7, 7]),
          expirationTime := 100 + cfgForce.database.expiration }).2 ∧
    (Scraper.ScrapeWithRetry cfgForce sampleScrapeOk randZero ⟨[]⟩ "" 100).result =
      some { value := .vBytes [7, 7], err := none } :=
  ⟨(c3_success_is_cached cfgForce sampleScrapeOk randZero ⟨[]⟩ ⟨[]⟩ "k" 100
      { value := .vBytes [7, 7], err := none }
      (Or.inl ⟨rfl, rfl⟩) rfl rfl (by decide)).1,
   (c3_success_is_cached cfgForce sampleScrapeOk randZero ⟨[]⟩ ⟨[]⟩ "k" 100
      { value := .vBytes [7, 7], err := none }
      (Or.inl ⟨rfl, rfl⟩) rfl rfl (by decide)).2,
   (c3_success_is_cached cfgForce sampleScrapeOk randZero ⟨[]⟩ ⟨[]⟩ "" 100
      { value := .vBytes [7, 7], err := none }
      (Or.inl ⟨rfl, rfl⟩) rfl rfl (by decide)).1⟩

/-- C4: a failing attempt a ≥ 1 that is not the last sleeps for
calculateBackoffDelay(a-1); without jitter this delay equals
min(base_delay * 2^(a-1), max(30s, base_delay * 16)); with base_delay = 1s and
jitter disabled attempts 1, 2, 3 produce 1s, 2s, 4s; with jitter enabled the
delay lies between 0 and the non-jittered value; and in an all-failing run the
recorded pre-sleep delays are exactly the calculateBackoffDelay values at
attempt - 1. -/
theorem c4_backoff_delay :
    (∀ (cfg : Config.Config) (a : Nat) (r : ℚ), 1 ≤ a →
      cfg.backoff.jitter = false → 0 < cfg.backoff.baseDelay →
      Scraper.calculateBackoffDelay cfg (a - 1) r =
        min (cfg.backoff.baseDelay * 2 ^ (a - 1))
          (max (30 * second) (cfg.backoff.baseDelay * 16))) ∧
    (∀ r : ℚ,
      Scraper.calculateBackoffDelay cfgBase1 0 r = second ∧
      Scraper.calculateBackoffDelay cfgBase1 1 r = 2 * second ∧
      Scraper.calculateBackoffDelay cfgBase1 2 r = 4 * second) ∧
    (∀ (cfg : Config.Config) (a : Nat) (r : ℚ),
      cfg.backoff.jitter = true → 0 < cfg.backoff.baseDelay → 0 ≤ r → r < 1 →
      0 ≤ Scraper.calculateBackoffDelay cfg (a - 1) r ∧
      Scraper.calculateBackoffDelay cfg (a - 1) r ≤
        min (cfg.backoff.baseDelay * 2 ^ (a - 1))
          (max (30 * second) (cfg.backoff.baseDelay * 16))) ∧
    (∀ (cfg : Config.Config) (scrapeFn : Nat → Workerpool.Result) (rand : Nat → ℚ),
      (∀ x, (scrapeFn x).err ≠ none) → 1 ≤ cfg.retry →
      (Scraper.performScrapeWithRetries cfg scrapeFn rand).delays =
        (List.range (cfg.retry.toNat - 1)).map (fun i =>
          Scraper.calculateBackoffDelay cfg i (rand (i + 1)))) := by
  have hbase1 : cfgBase1.backoff.baseDelay = second := rfl
  refine ⟨?_, ?_, ?_, ?_⟩
  · intro cfg a r _ hj hb
    exact Scraper.calculateBackoffDelay_nojitter cfg (a - 1) r hj hb
  · intro r
    have h0 := Scraper.calculateBackoffDelay_nojitter cfgBase1 0 r rfl
      (by norm_num [hbase1, second])
    have h1 := Scraper.calculateBackoffDelay_nojitter cfgBase1 1 r rfl
      (by norm_num [hbase1, second])
    have h2 := Scraper.calculateBackoffDelay_nojitter cfgBase1 2 r rfl
      (by norm_num [hbase1, second])
    rw [hbase1] at h0 h1 h2
    refine ⟨?_, ?_, ?_⟩
    · rw [h0]; norm_num [second]
    · rw [h1]; norm_num [second]
    · rw [h2]; norm_num [second]
  · intro cfg a r hj hb hr0 hr1
    exact Scraper.calculateBackoffDelay_jitter_bounds cfg (a - 1) r hj hb hr0 hr1
  · intro cfg scrapeFn rand hfail hretry
    obtain ⟨e, he, ht⟩ := Scraper.retryGo_all_fail cfg scrapeFn rand hfail
      cfg.retry.toNat 1 none (by omega)
    rw [Scraper.performScrapeWithRetries, ht]
    apply List.map_congr_left
    intro i _
    have h1 : 1 + i - 1 = i := by omega
    have h2 : 1 + i = i + 1 := by omega
    rw [h1, h2]

theorem c4_backoff_delay_witness :
    Scraper.calculateBackoffDelay cfgBase1 1 0 =
      min (cfgBase1.backoff.baseDelay * 2 ^ 1)
        (max (30 * second) (cfgBase1.backoff.baseDelay * 16)) ∧
    Scraper.calculateBackoffDelay cfgBase1 0 0 = second ∧
    (0 ≤ Scraper.calculateBackoffDelay Config.Defaults 0 (1 / 2) ∧
      Scraper.calculateBackoffDelay Config.Defaults 0 (1 / 2) ≤
        min (Config.Defaults.backoff.baseDelay * 2 ^ 0)
          (max (30 * second) (Config.Defaults.backoff.baseDelay * 16))) ∧
    (Scraper.performScrapeWithRetries Config.Defaults sampleScrapeFail randZero).delays =
      (List.range (Int.toNat Config.Defaults.retry - 1)).map (fun i =>
        Scraper.calculateBackoffDelay Config.Defaults i (randZero (i + 1))) :=
  ⟨c4_backoff_delay.1 cfgBase1 2 0 (by decide) rfl (by norm_num [cfgBase1, second]),
   (c4_backoff_delay.2.1 0).1,
   c4_backoff_delay.2.2.1 Config.Defaults 1 (1 / 2) rfl
     (by norm_num [Config.Defaults, second]) (by norm_num) (by norm_num),
   c4_backoff_delay.2.2.2 Config.Defaults sampleScrapeFail randZero
     (fun x => by simp [sampleScrapeFail]) (by decide)⟩

/-- C5 counterexample: the default configuration with max_attempts (Retry) set
to 0 passes Validate — the code only rejects negative retry counts — and the
retry loop entered with the zero budget performs no attempts and builds its
failure from the nil last error (a fault, modelled as a `none` result),
contradicting the claim that such a configuration is rejected before the loop
starts. -/
theorem c5_counterexample :
    Config.Validate { Config.Defaults with retry := 0 } = [] ∧
    (Scraper.performScrapeWithRetries { Config.Defaults with retry := 0 }
      sampleScrapeFail randZero).attemptsMade = 0 ∧
    (Scraper.performScrapeWithRetries { Config.Defaults with retry := 0 }
      sampleScrapeFail randZero).result = none := by
  refine ⟨?_, rfl, rfl⟩
  rfl

/-- C5 amended: validation rejects only a negative retry count, so a
configuration with retry = 0 passes; with retry ≤ 0 the retry loop performs
zero attempts and returns the immediate failure built from the nil last
error, which faults when its message is formatted (modelled as a `none`
result). -/
theorem c5_retry_validation (cfg : Config.Config)
    (scrapeFn : Nat → Workerpool.Result) (rand : Nat → ℚ) :
    (cfg.retry < 0 → Config.Validate cfg ≠ []) ∧
    (cfg.retry ≤ 0 →
      (Scraper.performScrapeWithRetries cfg scrapeFn rand).attemptsMade = 0 ∧
      (Scraper.performScrapeWithRetries cfg scrapeFn rand).result = none) := by
  constructor
  · intro h hc
    rw [Config.Validate] at hc
    simp [h] at hc
  · intro h
    have h0 : cfg.retry.toNat = 0 := by omega
    rw [Scraper.performScrapeWithRetries, h0]
    exact ⟨rfl, rfl⟩

theorem c5_retry_validation_witness :
    Config.Validate { Config.Defaults with retry := -1 } ≠ [] ∧
    (Scraper.performScrapeWithRetries { Config.Defaults with retry := -1 }
      sampleScrapeFail randZero).attemptsMade = 0 :=
  ⟨(c5_retry_validation { Config.Defaults with retry := -1 }
      sampleScrapeFail randZero).1 (by decide),
   ((c5_retry_validation { Config.Defaults with retry := -1 }
      sampleScrapeFail randZero).2 (by decide)).1⟩

theorem c8_close_drains_all_witness :
    ∃ s : Workerpool.PoolState,
      Workerpool.closePool (Workerpool.mkPool 2 [sampleJob, sampleJob]) = some s ∧
      s.results.length = 2 ∧
      s.resultsClosed = true ∧
      s.jobsClosed = true :=
  c8_close_drains_all [sampleJob, sampleJob] 2 1 (by decide) (by decide)
    (by
      intro j hj
      simp at hj
      subst hj
      simp [sampleJob])

end Porygo
